import Mathlib

/-
  Verification of the egui-gizmo interaction engine (src/lib.rs) against its
  natural-language specification.

  Scalar model: the source computes with IEEE f64 (and a few f32 casts at the
  boundary, which this model does not distinguish).  `F64` models a float as
  either NaN, +infinity, -infinity, or a finite rational; arithmetic follows
  the IEEE rules for these classes (NaN propagates, inf - inf = NaN,
  0 * inf = NaN, division of a nonzero finite by zero yields a signed
  infinity, 0/0 = NaN).  Negative zero is identified with zero.  Finite
  rationals are carried as unnormalized `Int` fractions with a positive
  denominator (`Frac`), so that all arithmetic reduces in the kernel.
  Square roots of finite non-negative rationals are modelled by an arbitrary
  fixed total function (`fracSqrt`): no claim settled in this file depends on
  the finite values of square roots, only on their NaN/sign classification.
-/

namespace EguiGizmo

/-- An unnormalized rational: `num / den` with `0 < den`. -/
structure Frac where
  num : Int
  den : Int
  den_pos : 0 < den

instance : DecidableEq Frac := fun a b =>
  if h : a.num = b.num ∧ a.den = b.den then
    isTrue (by cases a; cases b; simp_all)
  else isFalse (by intro he; cases he; simp_all)

def Frac.ofInt (n : Int) : Frac := ⟨n, 1, one_pos⟩

def Frac.add (a b : Frac) : Frac :=
  ⟨a.num * b.den + b.num * a.den, a.den * b.den, mul_pos a.den_pos b.den_pos⟩

def Frac.neg (a : Frac) : Frac := ⟨-a.num, a.den, a.den_pos⟩

def Frac.mul (a b : Frac) : Frac :=
  ⟨a.num * b.num, a.den * b.den, mul_pos a.den_pos b.den_pos⟩

/-- Division; total, with an arbitrary value on a zero divisor (callers in
`F64.div` guard the zero case following IEEE). -/
def Frac.div (a b : Frac) : Frac :=
  if hp : 0 < b.num then ⟨a.num * b.den, a.den * b.num, mul_pos a.den_pos hp⟩
  else if hn : b.num < 0 then
    ⟨-(a.num * b.den), a.den * -b.num, mul_pos a.den_pos (by omega)⟩
  else ⟨0, 1, one_pos⟩

/-- Strict order on the represented rationals, by cross multiplication
(well-behaved thanks to the positive denominators). -/
def Frac.flt (a b : Frac) : Prop := a.num * b.den < b.num * a.den

instance (a b : Frac) : Decidable (a.flt b) :=
  inferInstanceAs (Decidable (_ < _))

/-- Fuel-bounded Newton iteration for an integer square-root approximation. -/
def natSqrtIter (n : Nat) : Nat → Nat → Nat
  | 0, x => x
  | fuel + 1, x =>
    let x2 := (x + n / max x 1) / 2
    if x2 < x then natSqrtIter n fuel x2 else x

def natSqrtApx (n : Nat) : Nat := natSqrtIter n 64 n

/-- Stand-in for the finite values of f64 square root; only its behaviour on
NaN / negative / infinite inputs is relevant to the claims below. -/
def fracSqrt (q : Frac) : Frac :=
  ⟨Int.ofNat (natSqrtApx q.num.toNat), Int.ofNat (max (natSqrtApx q.den.toNat) 1),
    Int.ofNat_pos.mpr (lt_of_lt_of_le one_pos (le_max_right _ 1))⟩

inductive F64 where
  | nan
  | inf
  | ninf
  | fin (q : Frac)
deriving DecidableEq

def F64.ofInt (n : Int) : F64 := .fin (Frac.ofInt n)

instance (n : Nat) : OfNat F64 n := ⟨F64.ofInt n⟩

/-- One half, used for the stroke-width and NDC halving in the source. -/
def F64.half : F64 := .fin ⟨1, 2, by omega⟩

def F64.add : F64 → F64 → F64
  | nan, _ => nan
  | _, nan => nan
  | inf, ninf => nan
  | ninf, inf => nan
  | inf, _ => inf
  | _, inf => inf
  | ninf, _ => ninf
  | _, ninf => ninf
  | fin a, fin b => fin (a.add b)

def F64.neg : F64 → F64
  | nan => nan
  | inf => ninf
  | ninf => inf
  | fin a => fin a.neg

def F64.sub (a b : F64) : F64 := a.add b.neg

def F64.mul : F64 → F64 → F64
  | nan, _ => nan
  | _, nan => nan
  | inf, inf => inf
  | inf, ninf => ninf
  | ninf, inf => ninf
  | ninf, ninf => inf
  | inf, fin q => if q.num = 0 then nan else if 0 < q.num then inf else ninf
  | fin q, inf => if q.num = 0 then nan else if 0 < q.num then inf else ninf
  | ninf, fin q => if q.num = 0 then nan else if 0 < q.num then ninf else inf
  | fin q, ninf => if q.num = 0 then nan else if 0 < q.num then ninf else inf
  | fin a, fin b => fin (a.mul b)

def F64.div : F64 → F64 → F64
  | nan, _ => nan
  | _, nan => nan
  | inf, inf => nan
  | inf, ninf => nan
  | ninf, inf => nan
  | ninf, ninf => nan
  | inf, fin q => if q.num < 0 then ninf else inf
  | ninf, fin q => if q.num < 0 then inf else ninf
  | fin _, inf => F64.ofInt 0
  | fin _, ninf => F64.ofInt 0
  | fin a, fin b =>
      if b.num = 0 then (if a.num = 0 then nan else if 0 < a.num then inf else ninf)
      else fin (a.div b)

instance : Add F64 := ⟨F64.add⟩
instance : Sub F64 := ⟨F64.sub⟩
instance : Mul F64 := ⟨F64.mul⟩
instance : Div F64 := ⟨F64.div⟩
instance : Neg F64 := ⟨F64.neg⟩

def F64.fsqrt : F64 → F64
  | nan => nan
  | inf => inf
  | ninf => nan
  | fin q => if q.num < 0 then nan else fin (fracSqrt q)

/-- Three-way comparison of finite values. -/
def fracCmp (a b : Frac) : Ordering :=
  if a.flt b then .lt else if b.flt a then .gt else .eq

/-- Rust `f64::partial_cmp`: `none` exactly when one operand is NaN. -/
def F64.fcmp : F64 → F64 → Option Ordering
  | nan, _ => none
  | _, nan => none
  | inf, inf => some .eq
  | inf, _ => some .gt
  | _, inf => some .lt
  | ninf, ninf => some .eq
  | ninf, _ => some .lt
  | _, ninf => some .gt
  | fin a, fin b => some (fracCmp a b)

/-- Rust `<` on floats: false whenever an operand is NaN. -/
def F64.fltb (a b : F64) : Bool :=
  match a.fcmp b with
  | some .lt => true
  | _ => false

/-- Rust `<=` on floats: false whenever an operand is NaN. -/
def F64.fleb (a b : F64) : Bool :=
  match a.fcmp b with
  | some .lt => true
  | some .eq => true
  | _ => false

/-- Rust `==` on floats: false whenever an operand is NaN. -/
def F64.feqb (a b : F64) : Bool :=
  match a.fcmp b with
  | some .eq => true
  | _ => false

def F64.isFin : F64 → Bool
  | fin _ => true
  | _ => false

/-- Rust `f64::signum` (0.0 is treated as positive, NaN maps to NaN). -/
def F64.signum : F64 → F64
  | nan => nan
  | inf => ofInt 1
  | ninf => ofInt (-1)
  | fin q => if q.num < 0 then ofInt (-1) else ofInt 1

def F64.recip (a : F64) : F64 := (1 : F64) / a

structure DVec3 where
  x : F64
  y : F64
  z : F64
deriving DecidableEq

structure DVec4 where
  x : F64
  y : F64
  z : F64
  w : F64
deriving DecidableEq

def DVec3.sub (a b : DVec3) : DVec3 := ⟨a.x - b.x, a.y - b.y, a.z - b.z⟩

def DVec3.scale (v : DVec3) (s : F64) : DVec3 := ⟨v.x * s, v.y * s, v.z * s⟩

def DVec3.length (v : DVec3) : F64 := (v.x * v.x + v.y * v.y + v.z * v.z).fsqrt

/-- glam `DVec3::normalize`: multiply by the reciprocal of the length; on a
zero-length or non-finite input this propagates non-finite components. -/
def DVec3.normalize (v : DVec3) : DVec3 := v.scale v.length.recip

/-- glam `DVec3::normalize_or_zero`: zero vector unless the reciprocal length
is finite and positive. -/
def DVec3.normalize_or_zero (v : DVec3) : DVec3 :=
  let rcp := v.length.recip
  if rcp.isFin && (0 : F64).fltb rcp then v.scale rcp else ⟨0, 0, 0⟩

def DVec4.add (a b : DVec4) : DVec4 := ⟨a.x + b.x, a.y + b.y, a.z + b.z, a.w + b.w⟩

def DVec4.sub (a b : DVec4) : DVec4 := ⟨a.x - b.x, a.y - b.y, a.z - b.z, a.w - b.w⟩

def DVec4.compMul (a b : DVec4) : DVec4 := ⟨a.x * b.x, a.y * b.y, a.z * b.z, a.w * b.w⟩

def DVec4.scale (v : DVec4) (s : F64) : DVec4 := ⟨v.x * s, v.y * s, v.z * s, v.w * s⟩

def DVec4.xyz (v : DVec4) : DVec3 := ⟨v.x, v.y, v.z⟩

def DVec4.length (v : DVec4) : F64 :=
  (v.x * v.x + v.y * v.y + v.z * v.z + v.w * v.w).fsqrt

/-- Column-major 4x4 matrix, as glam `DMat4` (x_axis is column 0). -/
structure DMat4 where
  x_axis : DVec4
  y_axis : DVec4
  z_axis : DVec4
  w_axis : DVec4
deriving DecidableEq

def DMat4.mulV4 (m : DMat4) (v : DVec4) : DVec4 :=
  (((m.x_axis.scale v.x).add (m.y_axis.scale v.y)).add (m.z_axis.scale v.z)).add
    (m.w_axis.scale v.w)

def DMat4.mulM (a b : DMat4) : DMat4 :=
  ⟨a.mulV4 b.x_axis, a.mulV4 b.y_axis, a.mulV4 b.z_axis, a.mulV4 b.w_axis⟩

instance : Mul DMat4 := ⟨DMat4.mulM⟩

/-- glam `DMat4::determinant` (cofactor expansion over 2x2
sub-determinants). -/
def DMat4.determinant (m : DMat4) : F64 :=
  let m00 := m.x_axis.x; let m01 := m.x_axis.y; let m02 := m.x_axis.z; let m03 := m.x_axis.w
  let m10 := m.y_axis.x; let m11 := m.y_axis.y; let m12 := m.y_axis.z; let m13 := m.y_axis.w
  let m20 := m.z_axis.x; let m21 := m.z_axis.y; let m22 := m.z_axis.z; let m23 := m.z_axis.w
  let m30 := m.w_axis.x; let m31 := m.w_axis.y; let m32 := m.w_axis.z; let m33 := m.w_axis.w
  let a2323 := m22 * m33 - m23 * m32
  let a1323 := m21 * m33 - m23 * m31
  let a1223 := m21 * m32 - m22 * m31
  let a0323 := m20 * m33 - m23 * m30
  let a0223 := m20 * m32 - m22 * m30
  let a0123 := m20 * m31 - m21 * m30
  m00 * (m11 * a2323 - m12 * a1323 + m13 * a1223) -
      m01 * (m10 * a2323 - m12 * a0323 + m13 * a0223) +
      m02 * (m10 * a1323 - m11 * a0323 + m13 * a0123) -
      m03 * (m10 * a1223 - m11 * a0223 + m12 * a0123)

/-- glam `DMat4::inverse`: unnormalized cofactor matrix multiplied by the
reciprocal of the determinant.  On a singular matrix the reciprocal is
infinite and the product propagates NaN; there is no guard. -/
def DMat4.inverse (m : DMat4) : DMat4 :=
  let m00 := m.x_axis.x; let m01 := m.x_axis.y; let m02 := m.x_axis.z; let m03 := m.x_axis.w
  let m10 := m.y_axis.x; let m11 := m.y_axis.y; let m12 := m.y_axis.z; let m13 := m.y_axis.w
  let m20 := m.z_axis.x; let m21 := m.z_axis.y; let m22 := m.z_axis.z; let m23 := m.z_axis.w
  let m30 := m.w_axis.x; let m31 := m.w_axis.y; let m32 := m.w_axis.z; let m33 := m.w_axis.w
  let coef00 := m22 * m33 - m32 * m23
  let coef02 := m12 * m33 - m32 * m13
  let coef03 := m12 * m23 - m22 * m13
  let coef04 := m21 * m33 - m31 * m23
  let coef06 := m11 * m33 - m31 * m13
  let coef07 := m11 * m23 - m21 * m13
  let coef08 := m21 * m32 - m31 * m22
  let coef10 := m11 * m32 - m31 * m12
  let coef11 := m11 * m22 - m21 * m12
  let coef12 := m20 * m33 - m30 * m23
  let coef14 := m10 * m33 - m30 * m13
  let coef15 := m10 * m23 - m20 * m13
  let coef16 := m20 * m32 - m30 * m22
  let coef18 := m10 * m32 - m30 * m12
  let coef19 := m10 * m22 - m20 * m12
  let coef20 := m20 * m31 - m30 * m21
  let coef22 := m10 * m31 - m30 * m11
  let coef23 := m10 * m21 - m20 * m11
  let fac0 : DVec4 := ⟨coef00, coef00, coef02, coef03⟩
  let fac1 : DVec4 := ⟨coef04, coef04, coef06, coef07⟩
  let fac2 : DVec4 := ⟨coef08, coef08, coef10, coef11⟩
  let fac3 : DVec4 := ⟨coef12, coef12, coef14, coef15⟩
  let fac4 : DVec4 := ⟨coef16, coef16, coef18, coef19⟩
  let fac5 : DVec4 := ⟨coef20, coef20, coef22, coef23⟩
  let vec0 : DVec4 := ⟨m10, m00, m00, m00⟩
  let vec1 : DVec4 := ⟨m11, m01, m01, m01⟩
  let vec2 : DVec4 := ⟨m12, m02, m02, m02⟩
  let vec3 : DVec4 := ⟨m13, m03, m03, m03⟩
  let inv0 := ((vec1.compMul fac0).sub (vec2.compMul fac1)).add (vec3.compMul fac2)
  let inv1 := ((vec0.compMul fac0).sub (vec2.compMul fac3)).add (vec3.compMul fac4)
  let inv2 := ((vec0.compMul fac1).sub (vec1.compMul fac3)).add (vec3.compMul fac5)
  let inv3 := ((vec0.compMul fac2).sub (vec1.compMul fac4)).add (vec2.compMul fac5)
  let sign_a : DVec4 := ⟨1, -(1 : F64), 1, -(1 : F64)⟩
  let sign_b : DVec4 := ⟨-(1 : F64), 1, -(1 : F64), 1⟩
  let inverse : DMat4 :=
    ⟨inv0.compMul sign_a, inv1.compMul sign_b, inv2.compMul sign_a, inv3.compMul sign_b⟩
  let col0 : DVec4 :=
    ⟨inverse.x_axis.x, inverse.y_axis.x, inverse.z_axis.x, inverse.w_axis.x⟩
  let dot0 := m.x_axis.compMul col0
  let dot1 := dot0.x + dot0.y + dot0.z + dot0.w
  let rcp_det := dot1.recip
  ⟨inverse.x_axis.scale rcp_det, inverse.y_axis.scale rcp_det,
    inverse.z_axis.scale rcp_det, inverse.w_axis.scale rcp_det⟩

structure DQuat where
  x : F64
  y : F64
  z : F64
  w : F64
deriving DecidableEq

/-- glam `DQuat::from_rotation_axes` (quaternion from a 3x3 rotation given by
its three column vectors, four-branch trace method). -/
def DQuat.from_rotation_axes (xa ya za : DVec3) : DQuat :=
  let m00 := xa.x; let m01 := xa.y; let m02 := xa.z
  let m10 := ya.x; let m11 := ya.y; let m12 := ya.z
  let m20 := za.x; let m21 := za.y; let m22 := za.z
  if m22.fleb 0 then
    let dif10 := m11 - m00
    let omm22 := (1 : F64) - m22
    if dif10.fleb 0 then
      let four_xsq := omm22 - dif10
      let inv4x := F64.half / four_xsq.fsqrt
      ⟨four_xsq * inv4x, (m01 + m10) * inv4x, (m02 + m20) * inv4x, (m12 - m21) * inv4x⟩
    else
      let four_ysq := omm22 + dif10
      let inv4y := F64.half / four_ysq.fsqrt
      ⟨(m01 + m10) * inv4y, four_ysq * inv4y, (m12 + m21) * inv4y, (m20 - m02) * inv4y⟩
  else
    let sum10 := m11 + m00
    let opm22 := (1 : F64) + m22
    if sum10.fleb 0 then
      let four_zsq := opm22 - sum10
      let inv4z := F64.half / four_zsq.fsqrt
      ⟨(m02 + m20) * inv4z, (m12 + m21) * inv4z, four_zsq * inv4z, (m01 - m10) * inv4z⟩
    else
      let four_wsq := opm22 + sum10
      let inv4w := F64.half / four_wsq.fsqrt
      ⟨(m12 - m21) * inv4w, (m20 - m02) * inv4w, (m01 - m10) * inv4w, four_wsq * inv4w⟩

/-- glam `DMat4::to_scale_rotation_translation`. -/
def DMat4.to_scale_rotation_translation (m : DMat4) : DVec3 × DQuat × DVec3 :=
  let det := m.determinant
  let scale : DVec3 := ⟨m.x_axis.length * det.signum, m.y_axis.length, m.z_axis.length⟩
  let inv_scale : DVec3 := ⟨scale.x.recip, scale.y.recip, scale.z.recip⟩
  let rotation := DQuat.from_rotation_axes
    (m.x_axis.scale inv_scale.x).xyz (m.y_axis.scale inv_scale.y).xyz
    (m.z_axis.scale inv_scale.z).xyz
  let translation := m.w_axis.xyz
  (scale, rotation, translation)

structure Pos2 where
  x : F64
  y : F64
deriving DecidableEq

/-- egui `Rect` (pixel coordinates). -/
structure Rect where
  min_x : F64
  min_y : F64
  max_x : F64
  max_y : F64
deriving DecidableEq

def Rect.width (r : Rect) : F64 := r.max_x - r.min_x

def Rect.height (r : Rect) : F64 := r.max_y - r.min_y

/-- egui `Rect::is_negative`. -/
def Rect.is_negative (r : Rect) : Bool :=
  r.width.fltb 0 || r.height.fltb 0

inductive GizmoMode where
  | rotate
  | translate
  | scale
deriving DecidableEq

inductive GizmoOrientation where
  | global
  | local
deriving DecidableEq

inductive GizmoDirection where
  | x
  | y
  | z
  | view
deriving DecidableEq

inductive TransformKind where
  | axis
  | plane
deriving DecidableEq

/-- `GizmoVisuals`, restricted to the fields that feed the interaction engine
(the colour and alpha fields are presentation-only and never read by it). -/
structure GizmoVisuals where
  stroke_width : F64
  gizmo_size : F64
deriving DecidableEq

/-- `GizmoConfig`: raw inputs above the separator, per-frame derived values
below it (as in the source). -/
structure GizmoConfig where
  view_matrix : DMat4
  projection_matrix : DMat4
  model_matrix : DMat4
  viewport : Rect
  mode : GizmoMode
  orientation : GizmoOrientation
  snapping : Bool
  snap_angle : F64
  snap_distance : F64
  snap_scale : F64
  visuals : GizmoVisuals
  rotation : DQuat
  translation : DVec3
  scale : DVec3
  view_projection : DMat4
  mvp : DMat4
  gizmo_view_forward : DVec3
  scale_factor : F64
  focus_distance : F64
  left_handed : Bool
deriving DecidableEq

/-- Modelled from the spec: `math::screen_to_world` (module src/math.rs is not
among the sources).  Per spec section 4.1 it un-projects a 2D screen point at a
given normalized device depth through the inverse view-projection matrix and
performs the perspective divide; a degenerate homogeneous w is not guarded
here (the result is undefined, i.e. non-finite, per the spec). -/
def screen_to_world (viewport : Rect) (mat : DMat4) (pos : Pos2) (z : F64) : DVec3 :=
  let ndc_x := (pos.x - viewport.min_x) / viewport.width * (2 : F64) - (1 : F64)
  let ndc_y := (pos.y - viewport.min_y) / viewport.height * (2 : F64) - (1 : F64)
  let world := mat.mulV4 ⟨ndc_x, -ndc_y, z, 1⟩
  (world.scale world.w.recip).xyz

/-- Modelled from the spec: `math::world_to_screen` (module src/math.rs is not
among the sources).  Per spec section 4.1 it projects a world point through the
matrix and viewport and returns absent when the point lies behind the camera or
the homogeneous divide is non-finite. -/
def world_to_screen (viewport : Rect) (mat : DMat4) (pos : DVec3) : Option Pos2 :=
  let clip := mat.mulV4 ⟨pos.x, pos.y, pos.z, 1⟩
  if clip.w.fleb 0 then none
  else
    let ndc_x := clip.x / clip.w
    let ndc_y := clip.y / clip.w
    if ndc_x.isFin && ndc_y.isFin then
      some ⟨viewport.min_x + (ndc_x + (1 : F64)) * F64.half * viewport.width,
        viewport.min_y + ((1 : F64) - ndc_y) * F64.half * viewport.height⟩
    else none

/-- `GizmoConfig::prepare`.  The caller's `ui` contributes only its clip
rectangle, passed explicitly. -/
def GizmoConfig.prepare (cfg : GizmoConfig) (clip_rect : Rect) : GizmoConfig :=
  let viewport := if cfg.viewport.is_negative then clip_rect else cfg.viewport
  let srt := cfg.model_matrix.to_scale_rotation_translation
  let rotation := srt.2.1
  let translation := srt.2.2
  let scale := srt.1
  let view_projection := cfg.projection_matrix * cfg.view_matrix
  let mvp := cfg.projection_matrix * cfg.view_matrix * cfg.model_matrix
  let scale_factor := mvp.w_axis.w / cfg.projection_matrix.x_axis.x / viewport.width * (2 : F64)
  let focus_distance := scale_factor * (cfg.visuals.stroke_width / (2 : F64) + (5 : F64))
  let left_handed :=
    if cfg.projection_matrix.z_axis.w.feqb 0 then
      (0 : F64).fltb cfg.projection_matrix.z_axis.z
    else (0 : F64).fltb cfg.projection_matrix.z_axis.w
  let gizmo_screen_pos := (world_to_screen viewport mvp translation).getD ⟨0, 0⟩
  let gizmo_view_near :=
    screen_to_world viewport view_projection.inverse gizmo_screen_pos (-(1 : F64))
  let gizmo_view_forward := (gizmo_view_near.sub translation).normalize_or_zero
  { cfg with
    viewport := viewport
    rotation := rotation
    translation := translation
    scale := scale
    view_projection := view_projection
    mvp := mvp
    gizmo_view_forward := gizmo_view_forward
    scale_factor := scale_factor
    focus_distance := focus_distance
    left_handed := left_handed }

/-- `GizmoConfig::local_space`: scale mode only works in local space. -/
def GizmoConfig.local_space (cfg : GizmoConfig) : Bool :=
  cfg.orientation == GizmoOrientation.local || cfg.mode == GizmoMode.scale

structure Ray where
  screen_pos : Pos2
  origin : DVec3
  direction : DVec3
deriving DecidableEq

/-- `Gizmo::pointer_ray`: absent exactly when there is no pointer hover
position; otherwise un-projects the pointer at the near and far planes and
normalizes (no degeneracy guard). -/
def Gizmo.pointer_ray (config : GizmoConfig) (hover_pos : Option Pos2) : Option Ray :=
  match hover_pos with
  | none => none
  | some screen_pos =>
    let mat := config.view_projection.inverse
    let origin := screen_to_world config.viewport mat screen_pos (-(1 : F64))
    let target := screen_to_world config.viewport mat screen_pos 1
    let direction := (target.sub origin).normalize
    some ⟨screen_pos, origin, direction⟩

/-- `GizmoResult`. -/
structure GizmoResult where
  scale : DVec3
  rotation : DQuat
  translation : DVec3
  mode : GizmoMode
  value : Option (F64 × F64 × F64)
deriving DecidableEq

inductive SubGizmoKind where
  | translation
  | rotation
  | scale
  | arcball
deriving DecidableEq

/-- Closed description of one sub-gizmo: its egui id suffix (the gizmo-level
id is fixed, and the distinct suffixes model the distinct `Id::with` values),
the sub-gizmo type, and its construction parameters.  The pick/update
behaviour of the individual sub-gizmo types lives in the src/subgizmo module,
which is not among the sources; it is supplied as a function parameter where
needed. -/
structure HandleSpec where
  name : String
  kind : SubGizmoKind
  direction : Option GizmoDirection
  transform_kind : Option TransformKind
deriving DecidableEq

/-- `Gizmo::new_rotation`. -/
def Gizmo.new_rotation : List HandleSpec :=
  [⟨"rx", .rotation, some .x, none⟩,
   ⟨"ry", .rotation, some .y, none⟩,
   ⟨"rz", .rotation, some .z, none⟩,
   ⟨"rs", .rotation, some .view, none⟩]

/-- `Gizmo::new_arcball`. -/
def Gizmo.new_arcball : List HandleSpec :=
  [⟨"arc", .arcball, none, none⟩]

/-- `Gizmo::new_translation`. -/
def Gizmo.new_translation : List HandleSpec :=
  [⟨"txs", .translation, some .view, some .plane⟩,
   ⟨"tx", .translation, some .x, some .axis⟩,
   ⟨"ty", .translation, some .y, some .axis⟩,
   ⟨"tz", .translation, some .z, some .axis⟩,
   ⟨"tyz", .translation, some .x, some .plane⟩,
   ⟨"txz", .translation, some .y, some .plane⟩,
   ⟨"txy", .translation, some .z, some .plane⟩]

/-- `Gizmo::new_scale`. -/
def Gizmo.new_scale : List HandleSpec :=
  [⟨"txs", .scale, some .view, some .plane⟩,
   ⟨"sx", .scale, some .x, some .axis⟩,
   ⟨"sy", .scale, some .y, some .axis⟩,
   ⟨"sz", .scale, some .z, some .axis⟩,
   ⟨"syz", .scale, some .x, some .plane⟩,
   ⟨"sxz", .scale, some .y, some .plane⟩,
   ⟨"sxy", .scale, some .z, some .plane⟩]

/-- The `match self.config.mode` block at the top of `Gizmo::interact` that
chooses which sub-gizmos are added, in order. -/
def Gizmo.choose_subgizmos : GizmoMode → List HandleSpec
  | .rotate => Gizmo.new_rotation ++ Gizmo.new_arcball
  | .translate => Gizmo.new_translation
  | .scale => Gizmo.new_scale

/-- The `(distance, subgizmo)` candidates: `filter_map` of each sub-gizmo's
pick result, in definition order. -/
def pickHits (pickf : HandleSpec → Ray → Option F64) (subgizmos : List HandleSpec)
    (ray : Ray) : List (F64 × HandleSpec) :=
  subgizmos.filterMap (fun s => (pickf s ray).map (fun t => (t, s)))

/-- One step of Rust `Iterator::min_by` (keep the accumulator unless it
compares strictly Greater; the comparator is
`first.partial_cmp(second).unwrap_or(Ordering::Equal)`). -/
def min_by_step (a b : F64 × HandleSpec) : F64 × HandleSpec :=
  if (a.1.fcmp b.1).getD Ordering.eq = Ordering.gt then b else a

/-- Rust `Iterator::min_by` (returns the first of several equal minima). -/
def iter_min_by : List (F64 × HandleSpec) → Option (F64 × HandleSpec)
  | [] => none
  | x :: xs => some (xs.foldl min_by_step x)

/-- `Gizmo::pick_subgizmo`. -/
def Gizmo.pick_subgizmo (pickf : HandleSpec → Ray → Option F64)
    (subgizmos : List HandleSpec) (ray : Ray) : Option HandleSpec :=
  (iter_min_by (pickHits pickf subgizmos ray)).map (fun p => p.2)

/-- Pointer/button state for the frame, as read from the egui `Ui` in
`Gizmo::interact`. -/
structure FrameInput where
  hover_pos : Option Pos2
  drag_started : Bool
  dragged_primary : Bool
  primary_down : Bool

/-- What a frame of `Gizmo::interact` produces: the optional transform result
and the `GizmoState` saved at frame end (`active_subgizmo_id`).  The state
type is a single optional handle identity, so it can never hold more than one
active handle per gizmo identity. -/
structure InteractOutput where
  result : Option GizmoResult
  active_subgizmo_id : Option String
deriving DecidableEq

/-- `Gizmo::interact` (interaction core).  Drawing, the focused/active flags
and the final copy of the result into the consumed config are presentation
effects and omitted; the pick and update behaviour of the individual
sub-gizmos (src/subgizmo module, not among the sources) are the `pickf` and
`updatef` parameters. -/
def Gizmo.interact (cfg0 : GizmoConfig) (clip_rect : Rect) (fi : FrameInput)
    (pickf : HandleSpec → Ray → Option F64)
    (updatef : HandleSpec → Ray → Option GizmoResult)
    (state0 : Option String) : InteractOutput :=
  let config := GizmoConfig.prepare cfg0 clip_rect
  let subgizmos := Gizmo.choose_subgizmos config.mode
  match Gizmo.pointer_ray config fi.hover_pos with
  | none => ⟨none, state0⟩
  | some ray =>
    let state1 :=
      if state0.isNone then
        match Gizmo.pick_subgizmo pickf subgizmos ray with
        | some sg => if fi.drag_started && fi.dragged_primary then some sg.name else state0
        | none => state0
      else state0
    match state1.bind (fun i => subgizmos.find? (fun s => s.name == i)) with
    | some sg =>
      if fi.primary_down then ⟨updatef sg ray, state1⟩
      else ⟨none, none⟩
    | none => ⟨none, state1⟩

/- Concrete values used to instantiate theorems with hypotheses. -/

def identM4 : DMat4 :=
  ⟨⟨1, 0, 0, 0⟩, ⟨0, 1, 0, 0⟩, ⟨0, 0, 1, 0⟩, ⟨0, 0, 0, 1⟩⟩

def zeroM4 : DMat4 :=
  ⟨⟨0, 0, 0, 0⟩, ⟨0, 0, 0, 0⟩, ⟨0, 0, 0, 0⟩, ⟨0, 0, 0, 0⟩⟩

def testViewport : Rect := ⟨0, 0, 800, 600⟩

def testConfig : GizmoConfig :=
  { view_matrix := identM4, projection_matrix := identM4, model_matrix := identM4,
    viewport := testViewport, mode := .translate, orientation := .global,
    snapping := false, snap_angle := 1, snap_distance := 1, snap_scale := 1,
    visuals := ⟨4, 75⟩, rotation := ⟨0, 0, 0, 1⟩,
    translation := ⟨0, 0, 0⟩, scale := ⟨1, 1, 1⟩,
    view_projection := identM4, mvp := identM4,
    gizmo_view_forward := ⟨1, 1, 1⟩, scale_factor := 0,
    focus_distance := 0, left_handed := false }

/-- A frame whose view-projection is singular: the prepared configuration for
a zero projection matrix. -/
def cexConfig : GizmoConfig :=
  GizmoConfig.prepare { testConfig with projection_matrix := zeroM4 } testViewport

/-- Scale mode with Global orientation (the orientation must be ignored). -/
def scaleGlobalConfig : GizmoConfig :=
  { testConfig with mode := .scale, orientation := .global }

def noPick : HandleSpec → Ray → Option F64 := fun _ _ => none

def noUpdate : HandleSpec → Ray → Option GizmoResult := fun _ _ => none

def fiNoHover : FrameInput := ⟨none, false, false, false⟩

def fiHoverReleased : FrameInput := ⟨some ⟨100, 100⟩, false, false, false⟩

def wHandle1 : HandleSpec := ⟨"h1", .translation, some .x, some .axis⟩

def wHandle2 : HandleSpec := ⟨"h2", .translation, some .y, some .axis⟩

def wRay : Ray := ⟨⟨0, 0⟩, ⟨0, 0, 0⟩, ⟨0, 0, 1⟩⟩

def wPickf : HandleSpec → Ray → Option F64 :=
  fun s _ => if s.name == "h1" then some 2 else some 1

def wPickfNan : HandleSpec → Ray → Option F64 :=
  fun s _ => if s.name == "h1" then some .nan else some 1

/- Theorems. -/

/-- Claim C5: Frame Configuration preparation is a pure function of the input
matrices, viewport and settings; running `prepare` twice on identical inputs
yields the same configuration (all derived fields included) as running it
once, with no other effects.  Purity and determinism are inherent in the
embedding (`GizmoConfig.prepare` is a function); idempotence is proved for
every configuration and clip rectangle. -/
theorem prepare_idempotent (cfg : GizmoConfig) (clip : Rect) :
    GizmoConfig.prepare (GizmoConfig.prepare cfg clip) clip =
      GizmoConfig.prepare cfg clip := by
  unfold GizmoConfig.prepare
  by_cases h : cfg.viewport.is_negative
  · by_cases h2 : clip.is_negative <;> simp [h, h2]
  · simp [h]

/-- Claim C7: after `prepare`, `scale_factor` equals the far-plane w component
of the MVP matrix (column-major element 15, i.e. `mvp.w_axis.w`) divided by
the projection matrix's horizontal scale term (element 0, i.e.
`projection_matrix.x_axis.x`), divided by the viewport width, times 2; and
`focus_distance` equals `scale_factor * (stroke_width / 2 + 5)`. -/
theorem scale_factor_focus_distance_spec (cfg : GizmoConfig) (clip : Rect) :
    (GizmoConfig.prepare cfg clip).scale_factor =
      (GizmoConfig.prepare cfg clip).mvp.w_axis.w / cfg.projection_matrix.x_axis.x /
        (GizmoConfig.prepare cfg clip).viewport.width * (2 : F64)
    ∧ (GizmoConfig.prepare cfg clip).focus_distance =
      (GizmoConfig.prepare cfg clip).scale_factor *
        (cfg.visuals.stroke_width / (2 : F64) + (5 : F64)) :=
  ⟨rfl, rfl⟩

/-- Claim C8: `local_space` holds exactly when orientation is Local or the
mode is Scale; in particular in Scale mode the orientation setting is ignored
and local space is always used. -/
theorem local_space_scale_spec :
    (∀ cfg : GizmoConfig, cfg.local_space = true ↔
      (cfg.orientation = GizmoOrientation.local ∨ cfg.mode = GizmoMode.scale))
    ∧ (∀ cfg : GizmoConfig, cfg.mode = GizmoMode.scale → cfg.local_space = true) := by
  constructor
  · intro cfg
    cases h1 : cfg.orientation <;> cases h2 : cfg.mode <;>
      simp [GizmoConfig.local_space, h1, h2]
  · intro cfg h
    cases h1 : cfg.orientation <;> simp [GizmoConfig.local_space, h1, h]

/-- Witness for C8 at a concrete configuration: Scale mode with Global
orientation still uses local space. -/
theorem local_space_scale_spec_witness :
    scaleGlobalConfig.mode = GizmoMode.scale ∧ scaleGlobalConfig.local_space = true :=
  ⟨rfl, local_space_scale_spec.2 scaleGlobalConfig rfl⟩

/-- Claim C9: `prepare` replaces a negative (unset) viewport by the caller's
clip rectangle before any derived value is computed (the whole preparation
coincides with preparation from the defaulted viewport), and leaves a
non-negative viewport unchanged. -/
theorem viewport_default_spec (cfg : GizmoConfig) (clip : Rect) :
    (GizmoConfig.prepare cfg clip).viewport =
      (if cfg.viewport.is_negative then clip else cfg.viewport)
    ∧ GizmoConfig.prepare cfg clip =
      GizmoConfig.prepare
        { cfg with viewport := if cfg.viewport.is_negative then clip else cfg.viewport }
        clip := by
  constructor
  · rfl
  · unfold GizmoConfig.prepare
    by_cases h : cfg.viewport.is_negative <;> by_cases h2 : clip.is_negative <;>
      simp [h, h2]

/-- Claim C10: the handle set is a deterministic function of the mode with
fixed cardinality and order: Translate and Scale yield 7 handles (view-facing
plane, X/Y/Z axes, then YZ/XZ/XY planes, a plane being named by its normal
direction); Rotate yields 5 handles (X, Y, Z, View rotation, then the
arcball).  This is exactly the order the picking tie-break ranges over. -/
theorem choose_subgizmos_order_spec :
    ((Gizmo.choose_subgizmos GizmoMode.translate).map
        (fun s => (s.kind, s.direction, s.transform_kind)) =
      [(.translation, some .view, some .plane),
       (.translation, some .x, some .axis),
       (.translation, some .y, some .axis),
       (.translation, some .z, some .axis),
       (.translation, some .x, some .plane),
       (.translation, some .y, some .plane),
       (.translation, some .z, some .plane)])
    ∧ ((Gizmo.choose_subgizmos GizmoMode.scale).map
        (fun s => (s.kind, s.direction, s.transform_kind)) =
      [(.scale, some .view, some .plane),
       (.scale, some .x, some .axis),
       (.scale, some .y, some .axis),
       (.scale, some .z, some .axis),
       (.scale, some .x, some .plane),
       (.scale, some .y, some .plane),
       (.scale, some .z, some .plane)])
    ∧ ((Gizmo.choose_subgizmos GizmoMode.rotate).map
        (fun s => (s.kind, s.direction, s.transform_kind)) =
      [(.rotation, some .x, none),
       (.rotation, some .y, none),
       (.rotation, some .z, none),
       (.rotation, some .view, none),
       (.arcball, none, none)])
    ∧ (Gizmo.choose_subgizmos GizmoMode.translate).length = 7
    ∧ (Gizmo.choose_subgizmos GizmoMode.scale).length = 7
    ∧ (Gizmo.choose_subgizmos GizmoMode.rotate).length = 5 := by
  refine ⟨rfl, rfl, rfl, rfl, rfl, rfl⟩

/-- Claim C4: in a frame with no pointer hover position, no ray is
constructed, no transform result is produced, and the state saved at frame
end equals the state loaded at frame start. -/
theorem no_hover_frame_inert (cfg0 : GizmoConfig) (clip : Rect) (fi : FrameInput)
    (pickf : HandleSpec → Ray → Option F64)
    (updatef : HandleSpec → Ray → Option GizmoResult)
    (s0 : Option String) (hh : fi.hover_pos = none) :
    Gizmo.pointer_ray (GizmoConfig.prepare cfg0 clip) fi.hover_pos = none
    ∧ (Gizmo.interact cfg0 clip fi pickf updatef s0).result = none
    ∧ (Gizmo.interact cfg0 clip fi pickf updatef s0).active_subgizmo_id = s0 := by
  refine ⟨?_, ?_, ?_⟩ <;> simp [Gizmo.interact, Gizmo.pointer_ray, hh]

/-- Witness for C4 at a concrete frame. -/
theorem no_hover_frame_inert_witness :
    fiNoHover.hover_pos = none
    ∧ (Gizmo.pointer_ray (GizmoConfig.prepare testConfig testViewport) fiNoHover.hover_pos = none
      ∧ (Gizmo.interact testConfig testViewport fiNoHover noPick noUpdate (some "tx")).result = none
      ∧ (Gizmo.interact testConfig testViewport fiNoHover noPick noUpdate
          (some "tx")).active_subgizmo_id = some "tx") :=
  ⟨rfl, no_hover_frame_inert testConfig testViewport fiNoHover noPick noUpdate (some "tx") rfl⟩

/-- Claim C3: if the frame starts in `Dragging h`, the state saved at frame
end is either `Dragging h` or `Idle` — never a different handle — and the
outcome does not depend on the pick behaviour at all (picking is only
attempted when no handle is active).  The persisted state is a single
`Option`, so it can never hold more than one active handle. -/
theorem dragging_exclusive_handle (cfg0 : GizmoConfig) (clip : Rect) (fi : FrameInput)
    (pickf pickf2 : HandleSpec → Ray → Option F64)
    (updatef : HandleSpec → Ray → Option GizmoResult) (h : String) :
    ((Gizmo.interact cfg0 clip fi pickf updatef (some h)).active_subgizmo_id = some h
      ∨ (Gizmo.interact cfg0 clip fi pickf updatef (some h)).active_subgizmo_id = none)
    ∧ (Gizmo.interact cfg0 clip fi pickf updatef (some h)).active_subgizmo_id
      = (Gizmo.interact cfg0 clip fi pickf2 updatef (some h)).active_subgizmo_id := by
  cases hh : fi.hover_pos with
  | none => simp [Gizmo.interact, Gizmo.pointer_ray, hh]
  | some pos =>
    simp only [Gizmo.interact, Gizmo.pointer_ray, hh, Option.isNone_some,
      Bool.false_eq_true, if_false, Option.some_bind]
    cases hf : (Gizmo.choose_subgizmos (GizmoConfig.prepare cfg0 clip).mode).find?
        (fun s => s.name == h) with
    | none => simp [hf]
    | some sg => cases hd : fi.primary_down <;> simp [hf, hd]

/-- Counterexample to claim C2 as stated: a frame that starts in
`Dragging "tx"` with the primary button released but no pointer hover
position keeps the dragging state instead of saving `Idle` (the release
transition in `Gizmo::interact` is nested inside the
`if let Some(pointer_ray)` block). -/
theorem dragging_release_no_hover_counterexample :
    fiNoHover.primary_down = false
    ∧ fiNoHover.hover_pos = none
    ∧ (Gizmo.interact testConfig testViewport fiNoHover noPick noUpdate
        (some "tx")).active_subgizmo_id = some "tx"
    ∧ (Gizmo.interact testConfig testViewport fiNoHover noPick noUpdate
        (some "tx")).active_subgizmo_id ≠ none :=
  ⟨rfl, rfl, by decide, by decide⟩

/-- Claim C2 (amended): if the frame starts in `Dragging h`, the primary
button is no longer held, a pointer hover position is available, and `h` is
among the handles instantiated for the current mode, then the state saved at
frame end is `Idle`; without a hover position the dragging state is saved
unchanged. -/
theorem dragging_release_idle_amended (cfg0 : GizmoConfig) (clip : Rect) (fi : FrameInput)
    (pickf : HandleSpec → Ray → Option F64)
    (updatef : HandleSpec → Ray → Option GizmoResult) (h : String)
    (hhov : fi.hover_pos.isSome = true)
    (hup : fi.primary_down = false)
    (hmem : ((Gizmo.choose_subgizmos cfg0.mode).find? (fun s => s.name == h)).isSome = true) :
    (Gizmo.interact cfg0 clip fi pickf updatef (some h)).active_subgizmo_id = none := by
  cases hh : fi.hover_pos with
  | none => rw [hh] at hhov; simp at hhov
  | some pos =>
    have hmode : (GizmoConfig.prepare cfg0 clip).mode = cfg0.mode := rfl
    simp only [Gizmo.interact, Gizmo.pointer_ray, hh, Option.isNone_some,
      Bool.false_eq_true, if_false, Option.some_bind, hmode]
    cases hf : (Gizmo.choose_subgizmos cfg0.mode).find? (fun s => s.name == h) with
    | none => rw [hf] at hmem; simp at hmem
    | some sg => simp [hf, hup]

/-- Witness for the amended C2 at a concrete frame. -/
theorem dragging_release_idle_amended_witness :
    fiHoverReleased.hover_pos.isSome = true
    ∧ fiHoverReleased.primary_down = false
    ∧ ((Gizmo.choose_subgizmos testConfig.mode).find? (fun s => s.name == "tx")).isSome = true
    ∧ (Gizmo.interact testConfig testViewport fiHoverReleased noPick noUpdate
        (some "tx")).active_subgizmo_id = none :=
  ⟨rfl, rfl, by decide,
    dragging_release_idle_amended testConfig testViewport fiHoverReleased noPick noUpdate
      "tx" rfl rfl (by decide)⟩

/-- Counterexample to claim C6 as stated: with a singular (zero)
view-projection matrix, `pointer_ray` does not return an absent result — it
returns a ray whose direction components are NaN, propagated through the
unguarded matrix inverse, perspective divide and normalization. -/
theorem pointer_ray_nonfinite_counterexample :
    cexConfig.view_projection = zeroM4
    ∧ (Gizmo.pointer_ray cexConfig (some ⟨100, 100⟩)).isSome = true
    ∧ (Gizmo.pointer_ray cexConfig (some ⟨100, 100⟩)).map (fun r => r.direction.x)
      = some F64.nan :=
  ⟨by decide, by decide, by decide⟩

/-- Claim C6 (amended): `pointer_ray` returns an absent result exactly when no
pointer hover position is available; degenerate geometry does not make it
absent (the components of the returned ray are then non-finite, see the
counterexample). -/
theorem pointer_ray_some_iff_hover_amended (cfg : GizmoConfig) (hover : Option Pos2) :
    (Gizmo.pointer_ray cfg hover).isSome = hover.isSome := by
  cases hover <;> rfl

/- Order lemmas for the float model, leading to the picking theorem (C1). -/

theorem Frac.flt_asymm {a b : Frac} (h : a.flt b) : ¬ b.flt a := by
  unfold Frac.flt at *
  exact lt_asymm h

theorem Frac.flt_trans {a b c : Frac} (hab : a.flt b) (hbc : b.flt c) : a.flt c := by
  unfold Frac.flt at *
  have h1 := mul_lt_mul_of_pos_right hab c.den_pos
  have h2 := mul_lt_mul_of_pos_right hbc a.den_pos
  have h3 : a.num * c.den * b.den < c.num * a.den * b.den := by nlinarith
  exact lt_of_mul_lt_mul_right h3 (le_of_lt b.den_pos)

theorem Frac.flt_of_flt_of_nlt {a b c : Frac} (h1 : c.flt a) (h2 : ¬ b.flt a) : c.flt b := by
  unfold Frac.flt at *
  rw [not_lt] at h2
  have h3 := mul_lt_mul_of_pos_right h1 b.den_pos
  have h4 := mul_le_mul_of_nonneg_right h2 (le_of_lt c.den_pos)
  have h5 : c.num * b.den * a.den < b.num * c.den * a.den := by nlinarith
  exact lt_of_mul_lt_mul_right h5 (le_of_lt a.den_pos)

theorem fracCmp_eq_lt {a b : Frac} : fracCmp a b = Ordering.lt ↔ a.flt b := by
  unfold fracCmp
  by_cases h1 : a.flt b
  · simp [h1]
  · by_cases h2 : b.flt a <;> simp [h1, h2]

theorem fracCmp_eq_gt {a b : Frac} : fracCmp a b = Ordering.gt ↔ b.flt a := by
  unfold fracCmp
  by_cases h1 : a.flt b
  · simp [h1, Frac.flt_asymm h1]
  · by_cases h2 : b.flt a <;> simp [h1, h2]

theorem fracCmp_eq_eq {a b : Frac} : fracCmp a b = Ordering.eq ↔ (¬ a.flt b ∧ ¬ b.flt a) := by
  unfold fracCmp
  by_cases h1 : a.flt b
  · simp [h1]
  · by_cases h2 : b.flt a <;> simp [h1, h2]

theorem fcmp_none_iff (a b : F64) : a.fcmp b = none ↔ (a = F64.nan ∨ b = F64.nan) := by
  cases a <;> cases b <;> simp [F64.fcmp]

theorem fcmp_gt_iff (a b : F64) :
    a.fcmp b = some Ordering.gt ↔ b.fcmp a = some Ordering.lt := by
  cases a <;> cases b <;> simp [F64.fcmp]
  rename_i qa qb
  rw [fracCmp_eq_gt, fracCmp_eq_lt]

theorem fcmp_eq_symm {a b : F64} (h : a.fcmp b = some Ordering.eq) :
    b.fcmp a = some Ordering.eq := by
  cases a <;> cases b <;> simp_all [F64.fcmp]
  rw [fracCmp_eq_eq] at *
  exact ⟨h.2, h.1⟩

theorem fcmp_gt_trans {a b c : F64} (h1 : a.fcmp b = some Ordering.gt)
    (h2 : b.fcmp c = some Ordering.gt) : a.fcmp c = some Ordering.gt := by
  cases a <;> cases b <;> cases c <;> simp_all [F64.fcmp]
  rw [fracCmp_eq_gt] at *
  exact Frac.flt_trans h2 h1

theorem fcmp_ge_gt_trans {a b c : F64}
    (h1 : a.fcmp b = some Ordering.lt ∨ a.fcmp b = some Ordering.eq)
    (h2 : a.fcmp c = some Ordering.gt) : b.fcmp c = some Ordering.gt := by
  cases a <;> cases b <;> cases c <;> simp_all [F64.fcmp]
  · rw [fracCmp_eq_gt] at *
    rename_i qa qb qc
    rcases h1 with h1 | h1
    · rw [fracCmp_eq_lt] at h1
      exact Frac.flt_trans h2 h1
    · rw [fracCmp_eq_eq] at h1
      exact Frac.flt_of_flt_of_nlt h2 h1.2

theorem getD_gt_iff (o : Option Ordering) :
    o.getD Ordering.eq = Ordering.gt ↔ o = some Ordering.gt := by
  cases o <;> simp

theorem fltb_true_iff (a b : F64) : a.fltb b = true ↔ a.fcmp b = some Ordering.lt := by
  unfold F64.fltb
  cases h : a.fcmp b with
  | none => simp
  | some o => cases o <;> simp

theorem fltb_false_iff (a b : F64) : a.fltb b = false ↔ ¬ a.fcmp b = some Ordering.lt := by
  rw [← fltb_true_iff]
  simp

theorem fleb_false_iff (a b : F64) :
    a.fleb b = false ↔ (a.fcmp b = some Ordering.gt ∨ a.fcmp b = none) := by
  unfold F64.fleb
  cases h : a.fcmp b with
  | none => simp
  | some o => cases o <;> simp

theorem fleb_true_iff (a b : F64) :
    a.fleb b = true ↔ (a.fcmp b = some Ordering.lt ∨ a.fcmp b = some Ordering.eq) := by
  unfold F64.fleb
  cases h : a.fcmp b with
  | none => simp
  | some o => cases o <;> simp

theorem fcmp_nan_right (a : F64) : a.fcmp F64.nan = none := by
  cases a <;> rfl

theorem fcmp_nan_left (b : F64) : F64.nan.fcmp b = none := by
  cases b <;> rfl

theorem fcmp_fin_fin (a b : Frac) :
    (F64.fin a).fcmp (F64.fin b) = some (fracCmp a b) := rfl

theorem isFin_iff (a : F64) : a.isFin = true ↔ ∃ q, a = F64.fin q := by
  cases a <;> simp [F64.isFin]

theorem fltb_rev_of_fleb_false {a b : F64} (ha : a.isFin = true) (hb : b.isFin = true)
    (h : a.fleb b = false) : b.fltb a = true := by
  rw [fleb_false_iff] at h
  rcases h with h | h
  · rw [fltb_true_iff, ← fcmp_gt_iff]
    exact h
  · rw [fcmp_none_iff] at h
    rcases h with h | h <;> subst h <;> simp [F64.isFin] at ha hb

theorem fleb_rev_of_fltb_false {a b : F64} (ha : a.isFin = true) (hb : b.isFin = true)
    (h : a.fltb b = false) : b.fleb a = true := by
  rw [isFin_iff] at ha hb
  obtain ⟨qa, rfl⟩ := ha
  obtain ⟨qb, rfl⟩ := hb
  rw [fltb_false_iff, fcmp_fin_fin] at h
  simp only [Option.some_inj] at h
  rw [fracCmp_eq_lt] at h
  rw [fleb_true_iff, fcmp_fin_fin]
  simp only [Option.some_inj]
  by_cases h2 : qb.flt qa
  · exact Or.inl (fracCmp_eq_lt.mpr h2)
  · exact Or.inr (fracCmp_eq_eq.mpr ⟨h2, h⟩)

/-- If the accumulator strictly beats the winner-to-be is impossible: a new
strictly-smaller element propagates the failure of `fleb` backwards. -/
theorem fleb_false_new_acc {xv yv wv : F64}
    (hxy : xv.fcmp yv = some Ordering.gt)
    (hyw : yv.fleb wv = false) : xv.fleb wv = false := by
  rw [fleb_false_iff] at hyw ⊢
  rcases hyw with h | h
  · exact Or.inl (fcmp_gt_trans hxy h)
  · rw [fcmp_none_iff] at h
    rcases h with h | h
    · rw [h, fcmp_nan_right] at hxy
      simp at hxy
    · exact Or.inr ((fcmp_none_iff _ _).mpr (Or.inr h))

/-- A kept accumulator propagates the failure of `fleb` to the element it was
kept against. -/
theorem fleb_false_kept_acc {xv yv wv : F64}
    (hxw : xv.fleb wv = false)
    (hxy : ¬ (xv.fcmp yv).getD Ordering.eq = Ordering.gt)
    (hnanw : xv = F64.nan → wv = F64.nan) : yv.fleb wv = false := by
  rw [fleb_false_iff] at hxw ⊢
  rcases hxw with hxw | hxw
  · rcases hoy : xv.fcmp yv with _ | o2
    · rw [fcmp_none_iff] at hoy
      rcases hoy with h | h
      · rw [h, fcmp_nan_left] at hxw
        simp at hxw
      · rw [h, fcmp_nan_left]
        exact Or.inr rfl
    · cases o2 with
      | lt => exact Or.inl (fcmp_ge_gt_trans (Or.inl hoy) hxw)
      | eq => exact Or.inl (fcmp_ge_gt_trans (Or.inr hoy) hxw)
      | gt => exact absurd ((getD_gt_iff _).mpr hoy) hxy
  · rw [fcmp_none_iff] at hxw
    rcases hxw with h | h
    · rw [hnanw h, fcmp_nan_right]
      exact Or.inr rfl
    · rw [h, fcmp_nan_right]
      exact Or.inr rfl

/-- A NaN accumulator is never replaced by `min_by` (its comparison is always
`unwrap_or(Equal)`). -/
theorem foldl_min_by_nan (x : F64 × HandleSpec) (hx : x.1 = F64.nan)
    (l : List (F64 × HandleSpec)) : l.foldl min_by_step x = x := by
  induction l with
  | nil => rfl
  | cons y ys ih =>
    have hs : min_by_step x y = x := by
      unfold min_by_step
      rw [hx]
      simp [F64.fcmp]
    rw [List.foldl_cons, hs, ih]

/-- Decomposition of Rust `Iterator::min_by` under the
`partial_cmp(..).unwrap_or(Equal)` comparator: the returned element `w`
splits the candidate list so that no earlier candidate compares
less-or-equal to `w` and no later candidate compares strictly less than `w`
(under IEEE partial comparison). -/
theorem foldl_min_by_split (x : F64 × HandleSpec) (xs : List (F64 × HandleSpec)) :
    ∃ l₁ l₂, x :: xs = l₁ ++ (xs.foldl min_by_step x) :: l₂
      ∧ (∀ y ∈ l₁, y.1.fleb (xs.foldl min_by_step x).1 = false)
      ∧ (∀ y ∈ l₂, y.1.fltb (xs.foldl min_by_step x).1 = false) := by
  induction xs generalizing x with
  | nil => exact ⟨[], [], rfl, by simp, by simp⟩
  | cons y ys ih =>
    rw [List.foldl_cons]
    by_cases hgt : (x.1.fcmp y.1).getD Ordering.eq = Ordering.gt
    · have hs : min_by_step x y = y := by unfold min_by_step; rw [if_pos hgt]
      rw [hs]
      have hxy : x.1.fcmp y.1 = some Ordering.gt := (getD_gt_iff _).mp hgt
      obtain ⟨l₁, l₂, heq, hl₁, hl₂⟩ := ih y
      refine ⟨x :: l₁, l₂, by rw [List.cons_append, heq], ?_, hl₂⟩
      intro z hz
      rcases List.mem_cons.mp hz with rfl | hz
      · cases l₁ with
        | nil =>
          simp only [List.nil_append, List.cons.injEq] at heq
          rw [fleb_false_iff, ← heq.1]
          exact Or.inl hxy
        | cons a l₁t =>
          have ha : a = y := by
            have := congrArg (fun l => l.head?) heq
            simpa using this.symm
          subst ha
          exact fleb_false_new_acc hxy (hl₁ a (List.mem_cons_self a l₁t))
      · exact hl₁ z hz
    · have hs : min_by_step x y = x := by unfold min_by_step; rw [if_neg hgt]
      rw [hs]
      obtain ⟨l₁, l₂, heq, hl₁, hl₂⟩ := ih x
      cases l₁ with
      | nil =>
        simp only [List.nil_append, List.cons.injEq] at heq
        refine ⟨[], y :: ys, by rw [List.nil_append, ← heq.1], by simp, ?_⟩
        intro z hz
        rcases List.mem_cons.mp hz with rfl | hz
        · rw [fltb_false_iff, ← heq.1]
          intro hlt
          exact hgt ((getD_gt_iff _).mpr ((fcmp_gt_iff _ _).mpr hlt))
        · exact hl₂ z (heq.2 ▸ hz)
      | cons a l₁t =>
        have ha : a = x := by
          have := congrArg (fun l => l.head?) heq
          simpa using this.symm
        subst ha
        have hys : ys = l₁t ++ ys.foldl min_by_step a :: l₂ := by
          have := congrArg (fun l => l.tail) heq
          simpa using this
        refine ⟨a :: y :: l₁t, l₂, ?_, ?_, hl₂⟩
        · rw [List.cons_append, List.cons_append, ← hys]
        · intro z hz
          have haw := hl₁ a (List.mem_cons_self a l₁t)
          rcases List.mem_cons.mp hz with rfl | hz
          · exact haw
          rcases List.mem_cons.mp hz with rfl | hz
          · exact fleb_false_kept_acc haw hgt
              (fun hn => by rw [foldl_min_by_nan a hn ys]; exact hn)
          · exact hl₁ z (List.mem_cons_of_mem a hz)

/-- The pick winner splits the candidate list: every earlier candidate fails
`<=` against it (it is strictly greater or incomparable), and no later
candidate is strictly below it. -/
theorem pick_subgizmo_split (pickf : HandleSpec → Ray → Option F64)
    (subgizmos : List HandleSpec) (ray : Ray)
    (hne : pickHits pickf subgizmos ray ≠ []) :
    ∃ w l₁ l₂, pickHits pickf subgizmos ray = l₁ ++ w :: l₂
      ∧ Gizmo.pick_subgizmo pickf subgizmos ray = some w.2
      ∧ (∀ y ∈ l₁, y.1.fleb w.1 = false)
      ∧ (∀ y ∈ l₂, y.1.fltb w.1 = false) := by
  unfold Gizmo.pick_subgizmo
  cases h : pickHits pickf subgizmos ray with
  | nil => exact absurd h hne
  | cons x xs =>
    obtain ⟨l₁, l₂, heq, hl₁, hl₂⟩ := foldl_min_by_split x xs
    exact ⟨xs.foldl min_by_step x, l₁, l₂, heq, rfl, hl₁, hl₂⟩

/-- Claim C1: picking is deterministic (it is a pure function of the ray and
handle set); with all reported distances comparable (no NaN) it returns the
handle with the strictly smallest distance among the earlier candidates and
smallest-or-equal among the later ones, i.e. the first-defined minimum; in
general the winner splits the hit list so that every earlier hit is strictly
greater or incomparable and no later hit is strictly smaller; and for a pair
of handles whose distances compare equal or incomparable (NaN), the
earlier-defined handle wins. -/
theorem pick_subgizmo_determinism_min_tiebreak :
    (∀ (pickf : HandleSpec → Ray → Option F64) (subgizmos : List HandleSpec) (ray : Ray),
      Gizmo.pick_subgizmo pickf subgizmos ray = Gizmo.pick_subgizmo pickf subgizmos ray
      ∧ pickHits pickf subgizmos ray = pickHits pickf subgizmos ray)
    ∧ (∀ (pickf : HandleSpec → Ray → Option F64) (subgizmos : List HandleSpec) (ray : Ray),
      pickHits pickf subgizmos ray ≠ [] →
      ∃ w l₁ l₂, pickHits pickf subgizmos ray = l₁ ++ w :: l₂
        ∧ Gizmo.pick_subgizmo pickf subgizmos ray = some w.2
        ∧ (∀ y ∈ l₁, y.1.fleb w.1 = false)
        ∧ (∀ y ∈ l₂, y.1.fltb w.1 = false))
    ∧ (∀ (pickf : HandleSpec → Ray → Option F64) (subgizmos : List HandleSpec) (ray : Ray),
      (∀ y ∈ pickHits pickf subgizmos ray, y.1.isFin = true) →
      pickHits pickf subgizmos ray ≠ [] →
      ∃ w l₁ l₂, pickHits pickf subgizmos ray = l₁ ++ w :: l₂
        ∧ Gizmo.pick_subgizmo pickf subgizmos ray = some w.2
        ∧ (∀ y ∈ l₁, w.1.fltb y.1 = true)
        ∧ (∀ y ∈ l₂, w.1.fleb y.1 = true))
    ∧ (∀ (pickf : HandleSpec → Ray → Option F64) (a b : HandleSpec) (ray : Ray)
        (da db : F64), pickf a ray = some da → pickf b ray = some db →
      (da.fcmp db = some Ordering.eq ∨ da.fcmp db = none) →
      Gizmo.pick_subgizmo pickf [a, b] ray = some a) := by
  refine ⟨fun _ _ _ => ⟨rfl, rfl⟩, pick_subgizmo_split, ?_, ?_⟩
  · intro pickf subgizmos ray hfin hne
    obtain ⟨w, l₁, l₂, heq, hpick, hl₁, hl₂⟩ := pick_subgizmo_split pickf subgizmos ray hne
    have hwmem : w ∈ pickHits pickf subgizmos ray := by
      rw [heq]
      exact List.mem_append_right _ (List.mem_cons_self _ _)
    have hwfin : w.1.isFin = true := hfin w hwmem
    refine ⟨w, l₁, l₂, heq, hpick, ?_, ?_⟩
    · intro y hy
      have hyfin : y.1.isFin = true := hfin y (by rw [heq]; exact List.mem_append_left _ hy)
      exact fltb_rev_of_fleb_false hyfin hwfin (hl₁ y hy)
    · intro y hy
      have hyfin : y.1.isFin = true := hfin y
        (by rw [heq]; exact List.mem_append_right _ (List.mem_cons_of_mem _ hy))
      exact fleb_rev_of_fltb_false hyfin hwfin (hl₂ y hy)
  · intro pickf a b ray da db h1 h2 hcmp
    unfold Gizmo.pick_subgizmo
    have hh : pickHits pickf [a, b] ray = [(da, a), (db, b)] := by
      simp [pickHits, h1, h2]
    rw [hh]
    have hstep : min_by_step (da, a) (db, b) = (da, a) := by
      unfold min_by_step
      rcases hcmp with hcmp | hcmp <;> simp [hcmp]
    show (some ([(db, b)].foldl min_by_step (da, a))).map (fun p => p.2) = some a
    rw [List.foldl_cons, List.foldl_nil, hstep]
    rfl

/-- Witness for C1 at concrete handle sets: a two-handle set with distances
2 and 1 (all finite), and a two-handle set whose first distance is NaN
(incomparable), where the earlier handle wins. -/
theorem pick_subgizmo_determinism_min_tiebreak_witness :
    (pickHits wPickf [wHandle1, wHandle2] wRay ≠ []
      ∧ ∃ w l₁ l₂, pickHits wPickf [wHandle1, wHandle2] wRay = l₁ ++ w :: l₂
        ∧ Gizmo.pick_subgizmo wPickf [wHandle1, wHandle2] wRay = some w.2
        ∧ (∀ y ∈ l₁, y.1.fleb w.1 = false)
        ∧ (∀ y ∈ l₂, y.1.fltb w.1 = false))
    ∧ ((∀ y ∈ pickHits wPickf [wHandle1, wHandle2] wRay, y.1.isFin = true)
      ∧ ∃ w l₁ l₂, pickHits wPickf [wHandle1, wHandle2] wRay = l₁ ++ w :: l₂
        ∧ Gizmo.pick_subgizmo wPickf [wHandle1, wHandle2] wRay = some w.2
        ∧ (∀ y ∈ l₁, w.1.fltb y.1 = true)
        ∧ (∀ y ∈ l₂, w.1.fleb y.1 = true))
    ∧ (wPickfNan wHandle1 wRay = some F64.nan
      ∧ wPickfNan wHandle2 wRay = some (1 : F64)
      ∧ F64.nan.fcmp (1 : F64) = none
      ∧ Gizmo.pick_subgizmo wPickfNan [wHandle1, wHandle2] wRay = some wHandle1) :=
  ⟨⟨by decide, pick_subgizmo_determinism_min_tiebreak.2.1 wPickf [wHandle1, wHandle2] wRay
      (by decide)⟩,
   ⟨by decide, pick_subgizmo_determinism_min_tiebreak.2.2.1 wPickf [wHandle1, wHandle2] wRay
      (by decide) (by decide)⟩,
   ⟨by decide, by decide, by decide,
    pick_subgizmo_determinism_min_tiebreak.2.2.2 wPickfNan wHandle1 wHandle2 wRay
      F64.nan (1 : F64) (by decide) (by decide) (Or.inr (by decide))⟩⟩

end EguiGizmo
